import Mathlib

/-!
Shallow embedding of the rHP-Pandas row-transform core
(`src/rhppandas/rhppandas.py`) together with models of the external
collaborators it calls (the rHEALPix grid adapter `rhealpixdggs.rhp_wrappers`,
shapely geometry constructors, and the pandas/geopandas table primitives the
accessor uses: `assign`, `set_index`, `from_dict`/`stack`, left `join`).

Tables are embedded as ordered row lists.  An address-indexed frame is
`List (String × ρ)`: the rHEALPix address index entry paired with the rest of
the row's columns, kept abstract as `ρ` (so "all other columns" statements are
by construction about the whole remainder of the row).  Raisable Python calls
are embedded in `Except Err`; a per-row null value is an `Option`.
-/

namespace RhpPandas

/-- Error kinds raised on the code paths modelled here: the spec taxonomy's
InvalidGeometryKind and InvalidAddressKind, plus Python's
NotImplementedError, which the unimplemented aggregate stubs raise. -/
inductive Err where
  | invalidGeometry
  | invalidAddress
  | notImplemented
  deriving DecidableEq

/-- Geometry values: a point (`shapely.geometry.Point`) or a polygon given by
its boundary ring (`shapely.geometry.Polygon`); the empty ring stands for the
empty polygon `Polygon()`. -/
inductive Geometry (γ : Type) where
  | point (c : γ)
  | polygon (ring : List γ)
  deriving DecidableEq

/-- Whether a geometry value is a point. -/
def Geometry.isPoint {γ : Type} : Geometry γ → Bool
  | .point _ => true
  | .polygon _ => false

/-- Base partitions of the rHEALPix hierarchy: the fixed set of resolution-0
cell names (spec data model: the first character of an address denotes one of
a small fixed set of base partitions). -/
def baseCells : List Char := ['N', 'O', 'P', 'Q', 'R', 'S']

/-- Child selectors of the 3x3 rHEALPix hierarchy: digits 0 through 8. -/
def isCellDigit (c : Char) : Bool := '0' ≤ c && c ≤ '8'

/-- Modelled from the spec: `rhp_is_valid` of the external grid adapter
(`rhealpixdggs.rhp_wrappers`, spec section 6), which is not part of this
repository.  A valid address is a base-partition character followed by child
selectors; the predicate never raises (spec section 4.4). -/
def rhp_is_valid (a : String) : Bool :=
  match a.data with
  | [] => false
  | c :: rest => baseCells.contains c && rest.all isCellDigit

/-- Python `{:02}` formatting of a natural number: zero-padded to two digits. -/
def pad2 (r : Nat) : String := if r < 10 then "0" ++ toString r else toString r

/-- The resolution-suffixed column-name convention, src line 67:
`colname = "rhp_" + f"{resolution:02}"`. -/
def resColName (r : Nat) : String := "rhp_" ++ pad2 r

/-- Sequential list comprehension over the index with fail-fast exception
propagation: models `[processor(func(a)) for a in self._df.index]`
(src line 266) where `pf` is the composition of `processor` after `func`; a
raised exception aborts the whole comprehension at the first offending row. -/
def mapExcept {β : Type} (pf : String → Except Err β) : List String → Except Err (List β)
  | [] => .ok []
  | a :: rest =>
    match pf a with
    | .error e => .error e
    | .ok b =>
      match mapExcept pf rest with
      | .error e => .error e
      | .ok bs => .ok (b :: bs)

/-- Pandas `df.assign(**assign_args)` with a result list of the same length as
the frame (src lines 267-269): the list is attached positionally as a new
column; all existing columns (`ρ`) are carried over unchanged and a fresh
frame is returned (the input frame is not mutated). -/
def assignColumn {ρ β : Type} (df : List (String × ρ)) (col : List β) :
    List (String × ρ × β) :=
  (df.zip col).map (fun p => (p.1.1, p.1.2, p.2))

/-- `_apply_index_assign` (src lines 240-269): apply `pf` to every index
address, collecting the results in order (fail-fast on a raised exception),
then assign the result list as the destination column.  The `finalizer`
argument of the source only wraps the frame as a GeoDataFrame with a fixed
CRS and is omitted. -/
def apply_index_assign {ρ β : Type} (pf : String → Except Err β)
    (df : List (String × ρ)) : Except Err (List (String × ρ × β)) :=
  match mapExcept pf (df.map Prod.fst) with
  | .error e => .error e
  | .ok result => .ok (assignColumn df result)

/-- Concatenation of per-element lists, in order (used to state the pandas
stack/join row production below). -/
def catMap {α β : Type} (f : α → List β) : List α → List β
  | [] => []
  | a :: rest => f a ++ catMap f rest

/-- Python dict insertion step: a repeated key keeps its original position
(and, for a pure value function, its value); a new key is appended. -/
def insertKey (acc : List String) (a : String) : List String :=
  if a ∈ acc then acc else acc ++ [a]

/-- Key list of the dict comprehension over the index (src lines 300-303):
distinct addresses in order of first occurrence. -/
def distinctKeys (idx : List String) : List String := idx.foldl insertKey []

/-- The stacked result frame of `_apply_index_explode` (src lines 298-309):
`pd.DataFrame.from_dict({a: f(a) for a in index}, orient="index")` lays the
sequences out one dict key per row, padding short rows with NaN, and
`.stack()` drops exactly that padding, leaving one (address, element) row per
sequence element - dict-key order between addresses, sequence order within an
address.  Element values are of type `β` and never null, so only the padding
is dropped. -/
def explodeResult {β : Type} (f : String → List β) (idx : List String) :
    List (String × β) :=
  catMap (fun a => (f a).map (fun v => (a, v))) (distinctKeys idx)

/-- `self._df.join(result)` (src line 310): pandas left join on the index.
Every input row is kept in original order; a row joins with all result rows
carrying its address, in result order, and a row with no matching key is kept
once with a null in the joined column. -/
def leftJoin {ρ β : Type} (df : List (String × ρ)) (res : List (String × β)) :
    List (String × ρ × Option β) :=
  catMap (fun row =>
    match res.filter (fun p => p.1 == row.1) with
    | [] => [(row.1, row.2, none)]
    | ms => ms.map (fun p => (row.1, row.2, some p.2))) df

/-- `_apply_index_explode` (src lines 271-311): collect the per-address
sequences in an address-keyed mapping, stack it into one row per element, and
left-join the stacked frame back onto the input by index. -/
def apply_index_explode {ρ β : Type} (f : String → List β) (df : List (String × ρ)) :
    List (String × ρ × Option β) :=
  leftJoin df (explodeResult f (df.map Prod.fst))

/-- Output of `geo_to_rhp` (src lines 25-72): the destination column name, a
flag recording whether that column was set as the frame's index
(`set_index`, src lines 70-72), and the rows.  Each output row pairs the
computed address with the input row's coordinate payload and the rest of its
columns, which are carried over unchanged by `assign`. -/
structure GeoToRhpOut (γ ρ : Type) where
  colName : String
  isIndex : Bool
  rows : List (String × γ × ρ)

/-- `geo_to_rhp` on the plain-DataFrame branch (src lines 56-58 and 60-72):
read the coordinate columns, encode every row at `resolution` through the
external adapter (`rhp_py.geo_to_rhp`, abstracted as `encode`), assign the
address list under the resolution-suffixed column name, and set it as the
index unless suppressed.  Duplicate addresses are kept as they are. -/
def geo_to_rhp {γ ρ : Type} (encode : γ → Nat → String) (resolution : Nat)
    (set_index : Bool) (df : List (γ × ρ)) : GeoToRhpOut γ ρ :=
  { colName := resColName resolution
    isIndex := set_index
    rows := df.map (fun row => (encode row.1 resolution, row.1, row.2)) }

/-- GeoSeries coordinate access `self._df.geometry.x` / `.y` (src lines
54-55): geopandas raises a ValueError unless every geometry in the column is
a point, so the extraction of the coordinate list fails as a whole on the
first non-point geometry. -/
def geoSeriesPoints {γ : Type} : List (Geometry γ) → Except Err (List γ)
  | [] => .ok []
  | g :: rest =>
    match g with
    | .point c =>
      match geoSeriesPoints rest with
      | .error e => .error e
      | .ok cs => .ok (c :: cs)
    | .polygon _ => .error .invalidGeometry

/-- `geo_to_rhp` on the GeoDataFrame branch (src lines 53-55, then 60-72):
coordinates come from the point-geometry column; a non-point geometry fails
the whole operation before any address is computed. -/
def geo_to_rhp_geoframe {γ ρ : Type} (encode : γ → Nat → String) (resolution : Nat)
    (set_index : Bool) (df : List (Geometry γ × ρ)) :
    Except Err (GeoToRhpOut (Geometry γ) ρ) :=
  match geoSeriesPoints (df.map Prod.fst) with
  | .error e => .error e
  | .ok pts =>
    .ok { colName := resColName resolution
          isIndex := set_index
          rows := (df.zip (pts.map (fun c => encode c resolution))).map
            (fun p => (p.2, p.1.1, p.1.2)) }

/-- Modelled from the spec: the external wrapper `rhp_py.rhp_to_geo`
(`decode_centroid` of spec section 6, not part of this repository): it
returns a null on an invalid address; its centroid value on valid addresses
is abstracted by the `centroid` parameter. -/
def rhp_py_rhp_to_geo {γ : Type} (centroid : String → γ) (a : String) : Option γ :=
  if rhp_is_valid a then some (centroid a) else none

/-- Modelled from the spec: the external wrapper `rhp_py.rhp_to_geo_boundary`
(`decode_boundary` of spec section 6, not part of this repository): tolerant
of an invalid address, for which it returns a null; the boundary ring on
valid addresses is abstracted by the `boundary` parameter. -/
def rhp_py_rhp_to_geo_boundary {γ : Type} (boundary : String → List γ) (a : String) :
    Option (List γ) :=
  if rhp_is_valid a then some (boundary a) else none

/-- The processor `lambda x: shapely.geometry.Point(x)` of `rhp_to_geo`
(src line 89) applied to the wrapper result: a null argument raises, which is
the whole-table abort of strict centroid decode (InvalidAddressKind). -/
def shapelyPoint {γ : Type} : Option γ → Except Err (Geometry γ)
  | some c => .ok (.point c)
  | none => .error .invalidAddress

/-- The processor `lambda x: shapely.geometry.Polygon(x)` of
`rhp_to_geo_boundary` (src line 105) applied to the wrapper result: a null
argument yields the empty polygon `Polygon()` rather than raising. -/
def shapelyPolygon {γ : Type} : Option (List γ) → Geometry γ
  | some ring => .polygon ring
  | none => .polygon []

/-- `rhp_to_geo` (src lines 74-93): strict centroid decode of every index
address through `_apply_index_assign`, with the Point processor. -/
def rhp_to_geo {γ ρ : Type} (centroid : String → γ) (df : List (String × ρ)) :
    Except Err (List (String × ρ × Geometry γ)) :=
  apply_index_assign (fun a => shapelyPoint (rhp_py_rhp_to_geo centroid a)) df

/-- `rhp_to_geo_boundary` (src lines 95-109): lenient boundary decode of every
index address through `_apply_index_assign`, with the Polygon processor,
which cannot raise. -/
def rhp_to_geo_boundary {γ ρ : Type} (boundary : String → List γ)
    (df : List (String × ρ)) : Except Err (List (String × ρ × Geometry γ)) :=
  apply_index_assign
    (fun a => .ok (shapelyPolygon (rhp_py_rhp_to_geo_boundary boundary a))) df

/-- Destination column name chosen by `rhp_to_parent` (src line 180):
resolution-suffixed when the resolution is explicit, the fixed name
`"rhp_parent"` otherwise. -/
def rhpToParentColName : Option Nat → String
  | some r => resColName r
  | none => "rhp_parent"

/-- Modelled from the spec: the external wrapper `rhp_py.rhp_to_parent`
(spec section 4.4, not part of this repository): null on an invalid address;
with no resolution, truncate the address by exactly one level; with an
explicit resolution, truncate to that resolution (a resolution-`r` address
has `r + 1` characters).  A request at or above the address's own resolution
is a caller contract violation and is not exercised by the claims. -/
def rhp_py_rhp_to_parent (a : String) : Option Nat → Option String
  | none => if rhp_is_valid a then some ⟨a.data.dropLast⟩ else none
  | some r => if rhp_is_valid a then some ⟨a.data.take (r + 1)⟩ else none

/-- `rhp_to_parent` (src lines 170-184): per-row parent computation through
`_apply_index_assign`; the wrapper's null results flow into the column. -/
def rhp_to_parent {ρ : Type} (resolution : Option Nat) (df : List (String × ρ)) :
    Except Err (List (String × ρ × Option String)) :=
  apply_index_assign (fun a => .ok (rhp_py_rhp_to_parent a resolution)) df

/-- Modelled from the spec: the external wrapper `rhp_py.rhp_to_center_child`
(spec section 4.4, not part of this repository): null on an invalid address;
with no resolution, descend exactly one level by appending the designated
center selector (the digit 4 of the 3x3 hierarchy); with an explicit
resolution, descend to it; an address whose own resolution already exceeds
the requested one gets a null (per-row leniency). -/
def rhp_py_rhp_to_center_child (a : String) : Option Nat → Option String
  | none => if rhp_is_valid a then some ⟨a.data ++ ['4']⟩ else none
  | some r =>
    if rhp_is_valid a then
      if r + 1 < a.data.length then none
      else some ⟨a.data ++ List.replicate (r + 1 - a.data.length) '4'⟩
    else none

/-- `rhp_to_center_child` (src lines 186-200): per-row center-child
computation through `_apply_index_assign`, storing the wrapper's nulls in the
`rhp_center_child` column and never raising. -/
def rhp_to_center_child {ρ : Type} (resolution : Option Nat) (df : List (String × ρ)) :
    Except Err (List (String × ρ × Option String)) :=
  apply_index_assign (fun a => .ok (rhp_py_rhp_to_center_child a resolution)) df

/-- `rhp_to_parent_aggregate` (src lines 223-224): the entire method body is
the single statement `raise NotImplementedError()`.  Every call aborts with
that error before reading the table, whatever output its `GeoDataFrame`
annotation promises (`out` stands for that never-produced output type); the
stub does not even accept the `resolution` and `return_geometry` arguments
that the repository's own tests pass to it. -/
def rhp_to_parent_aggregate {ν σ : Type} (out : Type)
    (_df : List (String × ν × σ)) : Except Err out :=
  Except.error Err.notImplemented

/-- `geo_to_rhp_aggregate` (src lines 220-221): the entire method body is the
single statement `raise NotImplementedError()`.  Every call aborts with that
error before reading the table, whatever output its `DataFrame` annotation
promises (`out` stands for that never-produced output type); the stub does
not even accept the `resolution` and `return_geometry` arguments that the
repository's own tests pass to it. -/
def geo_to_rhp_aggregate {γc ν σ : Type} (out : Type)
    (_df : List (γc × ν × σ)) : Except Err out :=
  Except.error Err.notImplemented

/-! Helper lemmas about the embedded pandas primitives. -/

theorem mem_foldl_insertKey (l : List String) (acc : List String) (x : String) :
    x ∈ l.foldl insertKey acc ↔ x ∈ acc ∨ x ∈ l := by
  induction l generalizing acc with
  | nil => simp
  | cons a t ih =>
    rw [List.foldl_cons, ih]
    unfold insertKey
    by_cases h : a ∈ acc <;> simp [h] <;> aesop

theorem nodup_foldl_insertKey (l : List String) (acc : List String) (h : acc.Nodup) :
    (l.foldl insertKey acc).Nodup := by
  induction l generalizing acc with
  | nil => simpa
  | cons a t ih =>
    rw [List.foldl_cons]
    apply ih
    unfold insertKey
    by_cases hm : a ∈ acc
    · simpa [hm]
    · simp [hm, List.nodup_append, h]

theorem mem_distinctKeys (l : List String) (x : String) :
    x ∈ distinctKeys l ↔ x ∈ l := by
  unfold distinctKeys
  rw [mem_foldl_insertKey]
  simp

theorem nodup_distinctKeys (l : List String) : (distinctKeys l).Nodup :=
  nodup_foldl_insertKey l [] List.nodup_nil

theorem catMap_append {α β : Type} (f : α → List β) (l1 l2 : List α) :
    catMap f (l1 ++ l2) = catMap f l1 ++ catMap f l2 := by
  induction l1 <;> simp [catMap, *]

theorem catMap_congr {α β : Type} (f g : α → List β) (l : List α)
    (h : ∀ a ∈ l, f a = g a) : catMap f l = catMap g l := by
  induction l with
  | nil => rfl
  | cons a t ih =>
    simp only [catMap]
    rw [h a (by simp), ih fun b hb => h b (by simp [hb])]

theorem length_catMap {α β : Type} (f : α → List β) (l : List α) :
    (catMap f l).length = (l.map (fun a => (f a).length)).sum := by
  induction l <;> simp [catMap, *]

theorem filter_tag {β : Type} (a b : String) (l : List β) :
    (l.map (fun v => (b, v))).filter (fun p => p.1 == a) =
      if b = a then l.map (fun v => (b, v)) else [] := by
  by_cases h : b = a
  · subst h
    rw [if_pos rfl]
    apply List.filter_eq_self.mpr
    intro x hx
    simp only [List.mem_map] at hx
    obtain ⟨v, hv, rfl⟩ := hx
    simp
  · rw [if_neg h]
    apply List.filter_eq_nil_iff.mpr
    intro x hx
    simp only [List.mem_map] at hx
    obtain ⟨v, hv, rfl⟩ := hx
    simp [h]

theorem filter_catMap_tag {β : Type} (f : String → List β) (ks : List String)
    (a : String) (hn : ks.Nodup) :
    (catMap (fun b => (f b).map (fun v => (b, v))) ks).filter (fun p => p.1 == a) =
      if a ∈ ks then (f a).map (fun v => (a, v)) else [] := by
  induction ks with
  | nil => simp [catMap]
  | cons b t ih =>
    have hstep : catMap (fun b2 => (f b2).map (fun v => (b2, v))) (b :: t) =
        (f b).map (fun v => (b, v)) ++
          catMap (fun b2 => (f b2).map (fun v => (b2, v))) t := rfl
    rw [hstep, List.filter_append, filter_tag, ih (List.nodup_cons.mp hn).2]
    rcases List.nodup_cons.mp hn with ⟨hb, _⟩
    by_cases hba : b = a
    · subst hba
      simp [hb]
    · by_cases hat : a ∈ t <;> simp [hba, hat, Ne.symm hba]

theorem filter_explodeResult {β : Type} (f : String → List β) (idx : List String)
    (a : String) (h : a ∈ idx) :
    (explodeResult f idx).filter (fun p => p.1 == a) =
      (f a).map (fun v => (a, v)) := by
  unfold explodeResult
  rw [filter_catMap_tag f _ a (nodup_distinctKeys idx)]
  simp [mem_distinctKeys, h]

/-- Row-production law of the explode engine: the joined output is, row by
input row in original order, the full fan-out of the row's sequence (sequence
order preserved), except that a row whose sequence is empty is kept once with
a null in the destination column, by the left-join fallback. -/
theorem apply_index_explode_eq_catMap {ρ β : Type} (f : String → List β)
    (df : List (String × ρ)) :
    apply_index_explode f df = catMap (fun row =>
      if (f row.1).isEmpty then [(row.1, row.2, none)]
      else (f row.1).map (fun v => (row.1, row.2, some v))) df := by
  unfold apply_index_explode leftJoin
  apply catMap_congr
  intro row hrow
  have hmem : row.1 ∈ df.map Prod.fst := List.mem_map_of_mem Prod.fst hrow
  rw [filter_explodeResult f _ row.1 hmem]
  cases hfa : f row.1 with
  | nil => simp
  | cons v t => simp [List.map_map]

theorem mapExcept_pure {β : Type} (g : String → β) (l : List String) :
    mapExcept (fun a => .ok (g a)) l = .ok (l.map g) := by
  induction l <;> simp [mapExcept, *]

theorem assignColumn_map {ρ β : Type} (g : String → β) (df : List (String × ρ)) :
    assignColumn df ((df.map Prod.fst).map g) =
      df.map (fun row => (row.1, row.2, g row.1)) := by
  induction df with
  | nil => rfl
  | cons r t ih => simpa [assignColumn] using ih

/-- Map-mode law of the engine for a per-row function that cannot raise: the
operation succeeds and produces exactly one output row per input row, in
order, copying the index entry and all other columns unchanged. -/
theorem apply_index_assign_pure {ρ β : Type} (g : String → β) (df : List (String × ρ)) :
    apply_index_assign (fun a => .ok (g a)) df =
      .ok (df.map (fun row => (row.1, row.2, g row.1))) := by
  unfold apply_index_assign
  rw [mapExcept_pure]
  show Except.ok (assignColumn df ((df.map Prod.fst).map g)) = _
  rw [assignColumn_map]

theorem mapExcept_point_error {γ : Type} (centroid : String → γ) (l : List String)
    (h : ∃ a ∈ l, rhp_is_valid a = false) :
    mapExcept (fun a => shapelyPoint (rhp_py_rhp_to_geo centroid a)) l =
      .error .invalidAddress := by
  induction l with
  | nil => simp at h
  | cons a t ih =>
    by_cases hv : rhp_is_valid a = true
    · have ht : ∃ b ∈ t, rhp_is_valid b = false := by
        rcases h with ⟨b, hb, hbv⟩
        rcases List.mem_cons.mp hb with rfl | hbt
        · rw [hv] at hbv; cases hbv
        · exact ⟨b, hbt, hbv⟩
      have hpa : shapelyPoint (rhp_py_rhp_to_geo centroid a) =
          .ok (.point (centroid a)) := by
        simp [rhp_py_rhp_to_geo, shapelyPoint, hv]
      simp [mapExcept, hpa, ih ht]
    · have hv2 : rhp_is_valid a = false := by simpa using hv
      have hpa : shapelyPoint (rhp_py_rhp_to_geo centroid a) =
          .error Err.invalidAddress := by
        simp [rhp_py_rhp_to_geo, shapelyPoint, hv2]
      simp [mapExcept, hpa]

theorem geoSeriesPoints_error {γ : Type} (gs : List (Geometry γ))
    (h : ∃ g ∈ gs, g.isPoint = false) :
    geoSeriesPoints gs = .error .invalidGeometry := by
  induction gs with
  | nil => simp at h
  | cons g t ih =>
    cases g with
    | polygon ring => simp [geoSeriesPoints]
    | point c =>
      have ht : ∃ g2 ∈ t, g2.isPoint = false := by
        rcases h with ⟨g2, hg2, hgp⟩
        rcases List.mem_cons.mp hg2 with rfl | hgt
        · simp [Geometry.isPoint] at hgp
        · exact ⟨g2, hgt, hgp⟩
      simp [geoSeriesPoints, ih ht]

/-! Claim theorems. -/

/-- C1 counterexample: on a one-row table whose per-cell sequence is empty,
the explode engine emits one null-valued fallback row (the pandas left-join
fallback), not zero rows; so the claimed total row count (the sum of the
sequence lengths, here 0) and the claimed absence of a null-valued fallback
row both fail on the code. -/
theorem claim_C1_counterexample :
    apply_index_explode (fun _ => ([] : List String)) [("N2", (7 : Nat))] =
      [("N2", 7, none)] ∧
    (apply_index_explode (fun _ => ([] : List String)) [("N2", (7 : Nat))]).length ≠ 0 := by
  exact ⟨rfl, by decide⟩

/-- C1 (amended): explode-mode output is grouped by original row in original
order with sequence order preserved inside a group, a row with a nonempty
sequence contributing exactly one output row per element; but an input row
whose sequence is empty contributes exactly one output row carrying a null
destination value (the left-join fallback), not zero rows, so the total row
count is the sum of the sequence lengths plus one per empty-sequence row. -/
theorem claim_C1_amended {ρ β : Type} (f : String → List β) (df : List (String × ρ)) :
    apply_index_explode f df = catMap (fun row =>
      if (f row.1).isEmpty then [(row.1, row.2, none)]
      else (f row.1).map (fun v => (row.1, row.2, some v))) df ∧
    (apply_index_explode f df).length =
      (df.map (fun row => if (f row.1).isEmpty then 1 else (f row.1).length)).sum := by
  refine ⟨apply_index_explode_eq_catMap f df, ?_⟩
  rw [apply_index_explode_eq_catMap f df, length_catMap]
  have hfun : ∀ row : String × ρ,
      (if (f row.1).isEmpty then [(row.1, row.2, (none : Option β))]
       else (f row.1).map (fun v => (row.1, row.2, some v))).length =
      if (f row.1).isEmpty then 1 else (f row.1).length := by
    intro row
    cases hfa : f row.1 <;> simp
  simp only [hfun]

/-- C10: in explode mode the per-address results are collected in an
address-keyed mapping holding a single entry per distinct index address (the
filter of the stacked frame at a shared address is the one full sequence), so
any two input rows sharing a cell address receive identical exploded value
sequences and each of them is fanned out to the full sequence. -/
theorem claim_C10 {ρ β : Type} (f : String → List β) (a : String) (r1 r2 : ρ)
    (pre mid post : List (String × ρ)) (h : f a ≠ []) :
    (explodeResult f ((pre ++ (a, r1) :: mid ++ (a, r2) :: post).map Prod.fst)).filter
        (fun p => p.1 == a) = (f a).map (fun v => (a, v)) ∧
    apply_index_explode f (pre ++ (a, r1) :: mid ++ (a, r2) :: post) =
      apply_index_explode f pre ++ (f a).map (fun v => (a, r1, some v)) ++
        apply_index_explode f mid ++ (f a).map (fun v => (a, r2, some v)) ++
        apply_index_explode f post := by
  have hne : (f a).isEmpty = false := by
    cases hfa : f a with
    | nil => exact absurd hfa h
    | cons v t => rfl
  constructor
  · apply filter_explodeResult
    simp
  · simp only [apply_index_explode_eq_catMap, catMap_append, catMap]
    simp [hne, List.append_assoc]

/-- C10 witness: two rows sharing the address "N2" each receive the full
two-element sequence, in sequence order, grouped by input row. -/
theorem claim_C10_witness :
    apply_index_explode (fun _ => ["N20", "N21"]) [("N2", (0 : Nat)), ("N2", 1)] =
      [("N2", 0, some "N20"), ("N2", 0, some "N21"),
       ("N2", 1, some "N20"), ("N2", 1, some "N21")] :=
  ((claim_C10 (fun _ => ["N20", "N21"]) "N2" (0 : Nat) 1 [] [] []
    (List.cons_ne_nil _ _)).2).trans rfl

/-- C4: map mode with a single-valued per-cell function succeeds (no abort),
yields exactly one output row per input row in the same order, copies the
index entry and all other columns (the whole payload) unchanged from the
input row, and stores the function value in the destination column; the
input frame, a pure value in this embedding, is not mutated. -/
theorem claim_C4 {ρ β : Type} (g : String → β) (df : List (String × ρ)) :
    apply_index_assign (fun a => Except.ok (g a)) df =
      Except.ok (df.map (fun row => (row.1, row.2, g row.1))) ∧
    (df.map (fun row => (row.1, row.2, g row.1))).length = df.length :=
  ⟨apply_index_assign_pure g df, List.length_map df _⟩

/-- C3: on a table containing at least one invalid address, boundary decode
returns the complete table, with the empty polygon at every invalid row,
while centroid decode aborts the whole operation with the invalid-address
error and produces no partial output. -/
theorem claim_C3 {γ ρ : Type} (centroid : String → γ) (boundary : String → List γ)
    (df : List (String × ρ)) (h : ∃ row ∈ df, rhp_is_valid row.1 = false) :
    rhp_to_geo centroid df = Except.error Err.invalidAddress ∧
    rhp_to_geo_boundary boundary df = Except.ok (df.map (fun row =>
      (row.1, row.2, shapelyPolygon (rhp_py_rhp_to_geo_boundary boundary row.1)))) ∧
    ∀ row ∈ df, rhp_is_valid row.1 = false →
      shapelyPolygon (rhp_py_rhp_to_geo_boundary boundary row.1) =
        Geometry.polygon [] := by
  refine ⟨?_, apply_index_assign_pure _ df, ?_⟩
  · rcases h with ⟨row, hr, hv⟩
    unfold rhp_to_geo apply_index_assign
    rw [mapExcept_point_error centroid _
      ⟨row.1, List.mem_map_of_mem Prod.fst hr, hv⟩]
  · intro row hr hv
    simp [rhp_py_rhp_to_geo_boundary, shapelyPolygon, hv]

/-- C3 witness: a two-row table with one invalid address aborts centroid
decode whole, while boundary decode returns both rows, the invalid one with
the empty polygon. -/
theorem claim_C3_witness :
    rhp_to_geo (fun _ => (0 : Nat)) [("N216055611", (10 : Nat)), ("invalid", 20)] =
      Except.error Err.invalidAddress ∧
    rhp_to_geo_boundary (fun _ => ([(1 : Nat)]))
        [("N216055611", (10 : Nat)), ("invalid", 20)] =
      Except.ok [("N216055611", 10, Geometry.polygon [1]),
                 ("invalid", 20, Geometry.polygon [])] := by
  have h := claim_C3 (fun _ => (0 : Nat)) (fun _ => ([(1 : Nat)]))
    [("N216055611", (10 : Nat)), ("invalid", 20)]
    ⟨("invalid", 20), by decide, by decide⟩
  exact ⟨h.1, h.2.1.trans (congrArg Except.ok (by decide))⟩

/-- C5: `geo_to_rhp` on a geometry-bearing frame with at least one non-point
geometry fails the whole operation with the invalid-geometry error: no
representative point is sampled and no partial result is returned. -/
theorem claim_C5 {γ ρ : Type} (encode : γ → Nat → String) (resolution : Nat)
    (set_index : Bool) (df : List (Geometry γ × ρ))
    (h : ∃ row ∈ df, row.1.isPoint = false) :
    geo_to_rhp_geoframe encode resolution set_index df =
      Except.error Err.invalidGeometry := by
  rcases h with ⟨row, hr, hp⟩
  unfold geo_to_rhp_geoframe
  rw [geoSeriesPoints_error _ ⟨row.1, List.mem_map_of_mem Prod.fst hr, hp⟩]

/-- C5 witness: a frame whose single geometry is a polygon makes the encoding
fail whole with the invalid-geometry error. -/
theorem claim_C5_witness :
    geo_to_rhp_geoframe (fun _ _ => "N2") 9 true
      [(Geometry.polygon [(0 : Nat)], (5 : Nat))] =
      Except.error Err.invalidGeometry :=
  claim_C5 (fun _ _ => "N2") 9 true [(Geometry.polygon [(0 : Nat)], (5 : Nat))]
    ⟨(Geometry.polygon [0], 5), by decide, rfl⟩

/-- C7: `geo_to_rhp` names its destination column by the fixed two-digit
zero-padded resolution convention, records it as the row key exactly when
`set_index` is not suppressed, and keeps duplicate addresses with their
multiplicity (one output row per input row, no implicit deduplication). -/
theorem claim_C7 {γ ρ : Type} (encode : γ → Nat → String) (r : Nat)
    (set_index : Bool) (df : List (γ × ρ)) (h : r ≤ 15) :
    (geo_to_rhp encode r set_index df).colName = resColName r ∧
    (resColName r).data.take 4 = ['r', 'h', 'p', '_'] ∧
    (resColName r).length = 6 ∧
    (geo_to_rhp encode r set_index df).isIndex = set_index ∧
    (geo_to_rhp encode r set_index df).rows.length = df.length ∧
    (geo_to_rhp encode r set_index df).rows.map (fun t => t.1) =
      df.map (fun row => encode row.1 r) := by
  refine ⟨rfl, ?_, ?_, rfl, ?_, ?_⟩
  · interval_cases r <;> decide
  · interval_cases r <;> decide
  · simp [geo_to_rhp]
  · simp [geo_to_rhp, List.map_map, Function.comp]

/-- C7 witness: at resolution 9 the destination column is named "rhp_09",
and two rows encoding to the same address are both kept. -/
theorem claim_C7_witness :
    (geo_to_rhp (fun _ _ => "N216055147") 9 true
      [((0 : Nat), (0 : Nat)), (0, 1)]).colName = "rhp_09" ∧
    (geo_to_rhp (fun _ _ => "N216055147") 9 true
      [((0 : Nat), (0 : Nat)), (0, 1)]).rows.map (fun t => t.1) =
      ["N216055147", "N216055147"] := by
  have h := claim_C7 (fun (_ : Nat) (_ : Nat) => "N216055147") 9 true
    [((0 : Nat), (0 : Nat)), (0, 1)] (by decide)
  exact ⟨h.1.trans (by decide), h.2.2.2.2.2.trans (by decide)⟩

/-- C8: `rhp_to_parent` with an explicit resolution names its destination
column by the resolution-suffixed convention, and with no resolution uses
the fixed name "rhp_parent" and truncates each valid address by exactly one
level (one character, one resolution step). -/
theorem claim_C8 {ρ : Type} (r : Nat) (a : String) (df : List (String × ρ))
    (h : rhp_is_valid a = true) :
    rhpToParentColName (some r) = resColName r ∧
    rhpToParentColName none = "rhp_parent" ∧
    (∃ p, rhp_py_rhp_to_parent a none = some p ∧ p.data = a.data.dropLast ∧
      p.data.length + 1 = a.data.length) ∧
    rhp_to_parent none df = Except.ok (df.map (fun row =>
      (row.1, row.2, rhp_py_rhp_to_parent row.1 none))) := by
  refine ⟨rfl, rfl, ?_, apply_index_assign_pure _ df⟩
  refine ⟨⟨a.data.dropLast⟩, ?_, rfl, ?_⟩
  · simp [rhp_py_rhp_to_parent, h]
  · have hne : a.data ≠ [] := by
      intro hnil
      rw [rhp_is_valid, hnil] at h
      cases h
    have hpos : 0 < a.data.length := List.length_pos.mpr hne
    rw [List.length_dropLast]
    omega

/-- C8 witness: the explicit-resolution name at resolution 1 is "rhp_01";
on the valid address "N216" the direct parent is "N21" and the operation
stores it per row. -/
theorem claim_C8_witness :
    rhpToParentColName (some 1) = "rhp_01" ∧
    rhp_to_parent none [("N216", (0 : Nat))] =
      Except.ok [("N216", 0, some "N21")] := by
  have h := claim_C8 1 "N216" [("N216", (0 : Nat))] (by decide)
  exact ⟨h.1.trans (by decide), h.2.2.2.trans (congrArg Except.ok (by decide))⟩

/-- C9: `rhp_to_center_child` never aborts the table: it succeeds with one
output row per input row, storing the wrapper's per-row result; that result
is a null exactly on per-row failure (an invalid address, or an address
whose own resolution already exceeds the requested child resolution) and a
populated address on every valid row that fits. -/
theorem claim_C9 {ρ : Type} (resolution : Option Nat) (df : List (String × ρ)) :
    rhp_to_center_child resolution df = Except.ok (df.map (fun row =>
      (row.1, row.2, rhp_py_rhp_to_center_child row.1 resolution))) ∧
    (∀ a, rhp_is_valid a = false →
      rhp_py_rhp_to_center_child a resolution = none) ∧
    (∀ a r, rhp_is_valid a = true → r + 1 < a.data.length →
      rhp_py_rhp_to_center_child a (some r) = none) ∧
    (∀ a, rhp_is_valid a = true →
      rhp_py_rhp_to_center_child a none = some ⟨a.data ++ ['4']⟩) ∧
    (∀ a r, rhp_is_valid a = true → ¬(r + 1 < a.data.length) →
      rhp_py_rhp_to_center_child a (some r) =
        some ⟨a.data ++ List.replicate (r + 1 - a.data.length) '4'⟩) := by
  refine ⟨apply_index_assign_pure _ df, ?_, ?_, ?_, ?_⟩
  · intro a hv
    cases resolution <;> simp [rhp_py_rhp_to_center_child, hv]
  · intro a r hv hr
    simp [rhp_py_rhp_to_center_child, hv, hr]
    exact hr
  · intro a hv
    simp [rhp_py_rhp_to_center_child, hv]
  · intro a r hv hr
    simp [rhp_py_rhp_to_center_child, hv, hr]
    exact Nat.not_lt.mp hr

/-- C9 witness: a table with one valid and one invalid address is returned
whole, the valid row populated with the one-level center child and the
invalid row carrying a null. -/
theorem claim_C9_witness :
    rhp_to_center_child none [("N216055611", (0 : Nat)), ("invalid", 1)] =
      Except.ok [("N216055611", 0, some "N2160556114"), ("invalid", 1, none)] := by
  have h := claim_C9 none [("N216055611", (0 : Nat)), ("invalid", 1)]
  exact h.1.trans (congrArg Except.ok (by decide))

/-- C2: the claim (with spec section 4.6 and the repository's own
TestRhpToParentAggregate) describes aggregation returning one summed row per
distinct ancestor at the requested resolution, but the method under src/
(lines 223-224) is an unconditional NotImplementedError stub.  Evaluated at
the repository test's own input - three sibling resolution-9 addresses with
values 1, 2, 5, for which the test expects the single resolution-8 ancestor
"N21605561" with sum 8 under key column "rhp_08" - the call errors instead
of returning any table. -/
theorem claim_C2 :
    @rhp_to_parent_aggregate Int Unit (List (String × Int))
      [("N216055611", 1, ()), ("N216055612", 2, ()), ("N216055615", 5, ())] =
      Except.error Err.notImplemented := rfl

/-- C6: the claim (with spec section 4.6 and the repository's own
TestGeoToRhpAggregate) says `geo_to_rhp_aggregate` composes encoding at a
finer resolution with ancestor aggregation at the target resolution, but the
method under src/ (lines 220-221) is an unconditional NotImplementedError
stub.  Evaluated at the repository test's own input - coordinate rows
(50, 14) and (51, 15) with values 2 and 5, for which the test expects the
single resolution-1 cell "N2" with sum 7 - the call errors instead of
performing any encoding or aggregation, so no composition equality can hold
of the program. -/
theorem claim_C6 :
    @geo_to_rhp_aggregate (Int × Int) Int Unit (List (String × Int))
      [((50, 14), 2, ()), ((51, 15), 5, ())] =
      Except.error Err.notImplemented := rfl

end RhpPandas
